import Mathlib

/-!
Verification of the pdf-focus-box annotation tool core.

This file gives a shallow embedding of the interaction state machine, the
coordinate transform, the export compositor and the form-field layer of the
repository, and proves the specified properties about them.

Conventions of the embedding:
* JS numbers are modelled as exact rationals (`ℚ`).
* `Date.now()` is an explicit `now : Nat` parameter.
* JS string operations that the source uses (`trim`, `slice(0,-1)`, decimal
  rendering of numbers in template literals) are modelled structurally over
  `List Char` so that they are kernel-executable.
* Fallible third-party calls (pdf-lib `getField`, `select`, `setText`) are
  modelled with `Except`.
-/

namespace PdfFocusBox

/-- JavaScript `Math.round(q * 10) / 10` (round half toward positive
infinity), used on bounding-box coordinates at creation. -/
def round1 (q : ℚ) : ℚ := (⌊q * 10 + 1 / 2⌋ : ℤ) / 10

/-- A rational is a whole number of tenths, i.e. rounded to one decimal. -/
def isTenth (q : ℚ) : Prop := ∃ z : ℤ, q = (z : ℚ) / 10

/-- Decimal digit characters of a natural number, most significant first;
JavaScript renders `0` as `"0"`. This is the decimal rendering performed by
a template literal such as `` `box-${Date.now()}` ``. -/
def decimalChars (n : Nat) : List Char :=
  if n = 0 then ['0'] else ((Nat.digits 10 n).map Nat.digitChar).reverse

/-- Decimal string of a natural number (JS number-to-string for integers). -/
def natToString (n : Nat) : String := String.mk (decimalChars n)

/-- Identifier generated for a bounding box: `` `box-${Date.now()}` ``. -/
def mkBoxId (now : Nat) : String := "box-" ++ natToString now

/-- Identifier generated for a text annotation: `` `text-${Date.now()}` ``. -/
def mkTextId (now : Nat) : String := "text-" ++ natToString now

/-- JavaScript `String.prototype.trim`: strip leading and trailing
whitespace. -/
def jsTrim (s : String) : String :=
  String.mk (((s.data.dropWhile Char.isWhitespace).reverse.dropWhile
    Char.isWhitespace).reverse)

/-- JavaScript `s.slice(0, -1)`: drop the last character. -/
def jsDropLast (s : String) : String := String.mk s.data.dropLast

/-- BoundingBox from the source: `{ id, coords: [x1,y1,x2,y2], label? }`.
Note the source interface has NO page field. -/
structure BoundingBox where
  id : String
  x1 : ℚ
  y1 : ℚ
  x2 : ℚ
  y2 : ℚ
  label : Option String
deriving DecidableEq

/-- TextAnnot from the source:
`{ id, x, y, text, fontSize, page }` (page is 1-based). -/
structure TextAnnot where
  id : String
  x : ℚ
  y : ℚ
  text : String
  fontSize : ℚ
  page : Int
deriving DecidableEq

/-- The in-progress box draft `currentBox : { x, y, width, height }`. -/
structure DraftBox where
  x : ℚ
  y : ℚ
  width : ℚ
  height : ℚ
deriving DecidableEq

/-- The in-progress text placement
`activeTextAnn : { x, y, text, page }`. -/
structure PlacingState where
  x : ℚ
  y : ℚ
  text : String
  page : Int
deriving DecidableEq

/-- The viewer's interaction mode selector (multi-page variant). -/
inductive Mode where
  | box
  | text
deriving DecidableEq

/-- The per-gesture React state of the `PDFViewer` component:
`isDrawing`, `startPoint`, `currentBox`, `activeTextAnn`,
`draggingAnn`, `dragOffset`. -/
structure ViewerState where
  isDrawing : Bool
  startPoint : Option (ℚ × ℚ)
  currentBox : Option DraftBox
  activeTextAnn : Option PlacingState
  draggingAnn : Option String
  dragOffset : ℚ × ℚ
deriving DecidableEq

/-- Initial component state: nothing in progress. -/
def initViewerState : ViewerState :=
  ⟨false, none, none, none, none, (0, 0)⟩

/-- What the DOM hit-test found under a pointer-down: whether the event
target is inside a `[data-form-field]` element, and the text annotation
whose `[data-annotation-id]` element was hit, if any. -/
structure HitTarget where
  formField : Bool
  annotation : Option TextAnnot

/-- Screen-space to PDF-space point conversion used by every handler:
`x = (clientX - rect.left) / scale`, `y = (clientY - rect.top) / scale`
(the subtraction is folded into the screen point here). -/
def screenToPdf (scale : ℚ) (p : ℚ × ℚ) : ℚ × ℚ :=
  (p.1 / scale, p.2 / scale)

/-- PDF-space to screen-space conversion used when rendering overlays:
`left = x * scale`, `top = y * scale`. -/
def pdfToScreen (scale : ℚ) (p : ℚ × ℚ) : ℚ × ℚ :=
  (p.1 * scale, p.2 * scale)

/-- `handleTextAnnotMouseDown`: in text mode, start dragging the hit
annotation, remembering the offset between the pointer (already converted
to page space) and the annotation origin. -/
def handleTextAnnotMouseDown (ann : TextAnnot) (mouseX mouseY : ℚ)
    (mode : Mode) (st : ViewerState) : ViewerState :=
  if mode ≠ Mode.text then st
  else
    { st with
      draggingAnn := some ann.id
      dragOffset := (mouseX - ann.x, mouseY - ann.y) }

/-- Pointer-down dispatch of `handleMouseDown` (with `(x, y)` the pointer
already divided by scale). In text mode the priority is: (1) a form field
keeps the event (`return`, the field widget handles it); (2) an existing
annotation keeps the event (`return`, the annotation's own
`handleTextAnnotMouseDown` runs, which is inlined here); (3) otherwise
a new `activeTextAnn` is opened at the click position. In box mode a
drawing gesture starts. -/
def pointerDown (mode : Mode) (target : HitTarget) (x y : ℚ) (page : Int)
    (st : ViewerState) : ViewerState :=
  if mode = Mode.text then
    if target.formField then st
    else
      match target.annotation with
      | some ann => handleTextAnnotMouseDown ann x y mode st
      | none =>
        { st with activeTextAnn := some ⟨x, y, "", page⟩ }
  else if mode = Mode.box then
    { st with
      isDrawing := true
      startPoint := some (x, y)
      currentBox := some ⟨x, y, 0, 0⟩ }
  else st

/-- `handleMouseMove`: while drawing, recompute the live preview rectangle
as the min/abs envelope of the start point and the current point. -/
def handleMouseMove (currentX currentY : ℚ) (st : ViewerState) : ViewerState :=
  if st.draggingAnn.isSome then st
  else
    match st.isDrawing, st.startPoint with
    | true, some s =>
      { st with
        currentBox := some
          ⟨min s.1 currentX, min s.2 currentY,
           |currentX - s.1|, |currentY - s.2|⟩ }
    | _, _ => st

/-- `handleMouseUp`: commit the draft as a `BoundingBox` when its width and
height both exceed 5, with coordinates rounded to one decimal and a default
`Box {N}` label; then clear the drawing state. -/
def handleMouseUp (st : ViewerState) (boxes : List BoundingBox) (now : Nat) :
    ViewerState × List BoundingBox :=
  if st.draggingAnn.isSome then (st, boxes)
  else
    match st.isDrawing, st.currentBox with
    | true, some cb =>
      let boxes' :=
        if 5 < cb.width ∧ 5 < cb.height then
          boxes ++
            [{ id := mkBoxId now
               x1 := round1 cb.x
               y1 := round1 cb.y
               x2 := round1 (cb.x + cb.width)
               y2 := round1 (cb.y + cb.height)
               label := some ("Box " ++ natToString (boxes.length + 1)) }]
        else boxes
      ({ st with isDrawing := false, startPoint := none, currentBox := none },
       boxes')
    | _, _ => (st, boxes)

/-- `handleKeyDown` while a text placement is active: Enter commits (only a
buffer that is nonempty after trimming) and closes the session, Escape
closes it, Backspace drops the last character, any length-1 key appends. -/
def handleKeyDown (key : String) (st : ViewerState)
    (anns : List TextAnnot) (now : Nat) :
    ViewerState × List TextAnnot :=
  match st.activeTextAnn with
  | none => (st, anns)
  | some p =>
    if key = "Enter" then
      let anns' :=
        if jsTrim p.text ≠ "" then
          anns ++ [⟨mkTextId now, p.x, p.y, p.text, 14, p.page⟩]
        else anns
      ({ st with activeTextAnn := none }, anns')
    else if key = "Escape" then
      ({ st with activeTextAnn := none }, anns)
    else if key = "Backspace" then
      ({ st with activeTextAnn := some { p with text := jsDropLast p.text } },
       anns)
    else if key.length = 1 then
      ({ st with activeTextAnn := some { p with text := p.text ++ key } },
       anns)
    else (st, anns)

/-- State after a pointer-down in box mode followed by the given sequence
of pointer-move positions (each already divided by scale). -/
def boxGesture (sx sy : ℚ) (moves : List (ℚ × ℚ)) : ViewerState :=
  moves.foldl (fun st m => handleMouseMove m.1 m.2 st)
    (pointerDown Mode.box ⟨false, none⟩ sx sy 1 initViewerState)

/-- Bounding boxes after a full drag-release gesture in box mode: press at
`(sx, sy)`, the given moves, then release. -/
def dragRelease (sx sy : ℚ) (moves : List (ℚ × ℚ))
    (boxes : List BoundingBox) (now : Nat) : List BoundingBox :=
  (handleMouseUp (boxGesture sx sy moves) boxes now).2

/-- Convenient drawing-state abbreviation: mid-drag state with start point
`(sx, sy)` and draft `cb`. -/
def drawingState (sx sy : ℚ) (cb : DraftBox) : ViewerState :=
  ⟨true, some (sx, sy), some cb, none, none, (0, 0)⟩

/-! ## Identifier generation over the lifetime of a document

Adds and removes on the two user-authored collections, with the
`Date.now()` value observed at each creation. -/

/-- One store mutation of the annotation state, as produced by the event
handlers: box creation (`handleMouseUp`) and text creation
(`handleKeyDown` on Enter) record the `Date.now()` they read. -/
inductive StoreEvent where
  | addBox (now : Nat)
  | removeBox (id : String)
  | addText (now : Nat)
  | removeText (id : String)

/-- All identifiers generated by the add operations of a trace, in order. -/
def generatedIds : List StoreEvent → List String
  | [] => []
  | StoreEvent.addBox t :: rest => mkBoxId t :: generatedIds rest
  | StoreEvent.addText t :: rest => mkTextId t :: generatedIds rest
  | StoreEvent.removeBox _ :: rest => generatedIds rest
  | StoreEvent.removeText _ :: rest => generatedIds rest

/-- Timestamps observed by box creations in a trace. -/
def boxStamps : List StoreEvent → List Nat
  | [] => []
  | StoreEvent.addBox t :: rest => t :: boxStamps rest
  | _ :: rest => boxStamps rest

/-- Timestamps observed by text-annotation creations in a trace. -/
def textStamps : List StoreEvent → List Nat
  | [] => []
  | StoreEvent.addText t :: rest => t :: textStamps rest
  | _ :: rest => textStamps rest

/-! ## Export compositor (`exportPDFWithAnnotations`)

A loaded document's pages are modelled by their heights (`page.getSize()`
is only read for `height`). Drawing calls are reified as operation
records. -/

/-- One `page.drawText` call: target page index and the call's arguments. -/
structure DrawTextOp where
  pageIndex : Nat
  x : ℚ
  y : ℚ
  text : String
  size : ℚ
  font : String
  color : ℚ × ℚ × ℚ
deriving DecidableEq

/-- One `page.drawRectangle` call: target page index and the geometric
arguments (border color fixed at `rgb(0,0,1)`, width 1, opacity 0.5). -/
structure DrawRectOp where
  pageIndex : Nat
  x : ℚ
  y : ℚ
  width : ℚ
  height : ℚ
deriving DecidableEq

/-- The `drawText` emitted for one text annotation on the page of height
`h` at 0-based index `idx`: `pdfY = height - annotation.y`, Helvetica,
black, the annotation's own font size. -/
def textAnnotationOp (idx : Nat) (h : ℚ) (ann : TextAnnot) : DrawTextOp :=
  ⟨idx, ann.x, h - ann.y, ann.text, ann.fontSize, "Helvetica", (0, 0, 0)⟩

/-- The export's handling of one text annotation: drawn only when its
0-based page index `annotation.page - 1` is within the document,
out-of-range annotations are silently dropped. -/
def textAnnotationDraw (pages : List ℚ) (ann : TextAnnot) :
    Option DrawTextOp :=
  if 0 ≤ ann.page - 1 ∧ ann.page - 1 < (pages.length : Int) then
    some (textAnnotationOp (ann.page - 1).toNat
      (pages.getD (ann.page - 1).toNat 0) ann)
  else none

/-- The text-annotation pass of the export. -/
def exportTextOps (pages : List ℚ) (anns : List TextAnnot) :
    List DrawTextOp :=
  anns.filterMap (textAnnotationDraw pages)

/-- The `drawRectangle` emitted for one bounding box. The source uses
`pages[0]` unconditionally, so the page index is 0 and the height is the
first page's height: both corner Y's are flipped and the rectangle is
normalized to a positive height. -/
def boundingBoxRectOp (height0 : ℚ) (b : BoundingBox) : DrawRectOp :=
  let pdfY1 := height0 - b.y1
  let pdfY2 := height0 - b.y2
  ⟨0, b.x1, min pdfY1 pdfY2, b.x2 - b.x1, |pdfY2 - pdfY1|⟩

/-- The label `drawText` emitted for one bounding box (when it has a
label): 5 units above the box top on page 0, size 10, blue. -/
def boundingBoxLabelOp (height0 : ℚ) (b : BoundingBox) : Option DrawTextOp :=
  b.label.map fun lab =>
    ⟨0, b.x1, max (height0 - b.y1) (height0 - b.y2) + 5, lab, 10,
     "Helvetica", (0, 0, 1)⟩

/-- The bounding-box pass of the export. `pages[0]` is read for every box,
so a document with no pages makes the pass throw (`none`: the export's
catch-all aborts the export) as soon as there is a box to draw. -/
def exportBoxRectOps (pages : List ℚ) (boxes : List BoundingBox) :
    Option (List DrawRectOp) :=
  match pages with
  | [] => match boxes with | [] => some [] | _ => none
  | h0 :: _ => some (boxes.map (boundingBoxRectOp h0))

/-! ## Form fields (`formFields.ts` and the export's form pass) -/

/-- A pdf-lib form field as the source discriminates it (`instanceof`
chain), carrying the state the source reads and writes: current value,
options of choice fields, max length of text fields. -/
inductive PDFField where
  | textField (name : String) (value : Option String) (maxLength : Option Nat)
  | checkBox (name : String) (checked : Bool)
  | dropdown (name : String) (options : List String) (selected : List String)
  | radioGroup (name : String) (options : List String) (selected : Option String)
  | button (name : String)
  | optionList (name : String) (options : List String) (selected : List String)
deriving DecidableEq

/-- Field name (`field.getName()`). -/
def PDFField.name : PDFField → String
  | .textField n _ _ => n
  | .checkBox n _ => n
  | .dropdown n _ _ => n
  | .radioGroup n _ _ => n
  | .button n => n
  | .optionList n _ _ => n

/-- A JavaScript value as stored in the `formValues : Record<string, any>`
map. -/
inductive JSValue where
  | str (s : String)
  | bool (b : Bool)
  | strList (l : List String)
deriving DecidableEq

/-- Descriptor produced per field by `detectFormFields` (widget geometry is
delegated to pdf-lib and omitted here). -/
structure FormFieldData where
  name : String
  type : String
  value : Option JSValue
  options : Option (List String)
  maxLength : Option Nat
deriving DecidableEq

/-- Result shape of `detectFormFields`. -/
structure FormFieldsInfo where
  hasFormFields : Bool
  fields : List FormFieldData
  formValues : List (String × JSValue)
deriving DecidableEq

/-- Per-field descriptor extraction of `detectFormFields`. -/
def extractFieldData : PDFField → FormFieldData
  | .textField n v ml => ⟨n, "text", (v.map JSValue.str), none, ml⟩
  | .checkBox n c => ⟨n, "checkbox", some (JSValue.bool c), none, none⟩
  | .dropdown n opts sel =>
    ⟨n, "dropdown", some (JSValue.strList sel), some opts, none⟩
  | .radioGroup n opts sel =>
    ⟨n, "radio", (sel.map JSValue.str), some opts, none⟩
  | .button n => ⟨n, "button", none, none, none⟩
  | .optionList n opts sel =>
    ⟨n, "option-list", some (JSValue.strList sel), some opts, none⟩

/-- Per-field initial form value seeded by `detectFormFields`:
`getText() || ''`, `isChecked()`, `getSelected()` (a dropdown or option
list yields its array, a radio group `getSelected() || ''`); buttons seed
no value. -/
def extractFormValue : PDFField → Option (String × JSValue)
  | .textField n v _ => some (n, JSValue.str (v.getD ""))
  | .checkBox n c => some (n, JSValue.bool c)
  | .dropdown n _ sel => some (n, JSValue.strList sel)
  | .radioGroup n _ sel => some (n, JSValue.str (sel.getD ""))
  | .button _ => none
  | .optionList n _ sel => some (n, JSValue.strList sel)

/-- `detectFormFields`: the parsed document's field list, or a parse
failure (`Except.error`). Zero fields, like a failure, reports
`hasFormFields: false` with empty list and value map; the catch-all turns
any thrown error into the same degraded result instead of propagating. -/
def detectFormFields (doc : Except String (List PDFField)) : FormFieldsInfo :=
  match doc with
  | .error _ => ⟨false, [], []⟩
  | .ok fields =>
    if fields.length = 0 then ⟨false, [], []⟩
    else ⟨true, fields.map extractFieldData, fields.filterMap extractFormValue⟩

/-- pdf-lib `form.getField(name)`: the field of that (unique) name, or a
thrown error when no field matches. -/
def getFormField (fields : List PDFField) (n : String) : Except String PDFField :=
  match fields.find? (fun f => f.name = n) with
  | some f => .ok f
  | none => .error "no field of that name"

/-- Replace the fields named `n` by `f'` (the write-back of a mutated
pdf-lib field object; field names are document-unique). -/
def replaceFormField (fields : List PDFField) (n : String) (f' : PDFField) :
    List PDFField :=
  fields.map fun f => if f.name = n then f' else f

/-- The typed write chain of the export's form pass for one field/value
pair. Mirrors the `instanceof`/`typeof` chain of the source; pdf-lib write
behavior: `setText` throws past `maxLength`, `select` throws on a value
that is not among the field's options. `ok none` means no branch matched
and nothing was written; `ok (some f)` is the updated field. -/
def jsSetFieldValue (field : PDFField) (v : JSValue) :
    Except String (Option PDFField) :=
  match field, v with
  | .textField n _ ml, .str s =>
    match ml with
    | some m =>
      if m < s.length then .error "exceeds maxLength"
      else .ok (some (.textField n (some s) ml))
    | none => .ok (some (.textField n (some s) ml))
  | .checkBox n _, .bool b => .ok (some (.checkBox n b))
  | .dropdown n opts _, .strList l =>
    if l.length ≠ 0 then
      if l.all (opts.contains ·) then .ok (some (.dropdown n opts l))
      else .error "not an option"
    else .ok none
  | .dropdown n opts _, .str s =>
    if opts.contains s then .ok (some (.dropdown n opts [s]))
    else .error "not an option"
  | .radioGroup n opts _, .str s =>
    if opts.contains s then .ok (some (.radioGroup n opts (some s)))
    else .error "not an option"
  | .optionList n opts _, .strList l =>
    if l.all (opts.contains ·) then .ok (some (.optionList n opts l))
    else .error "not an option"
  | _, _ => .ok none

/-- Result of the export's form pass: final fields, the names warned about
(one `console.warn` per caught per-field error), and the names actually
written. -/
structure FormWriteResult where
  fields : List PDFField
  warnings : List String
  written : List String
deriving DecidableEq

/-- The export's form pass: `for (const [fieldName, value] of
Object.entries(formValues))`, each entry in its own try/catch — a thrown
`getField` or write error is warned about and skipped, the loop always
continues. -/
def applyFormValues (fields : List PDFField) :
    List (String × JSValue) → FormWriteResult
  | [] => ⟨fields, [], []⟩
  | (n, v) :: rest =>
    match getFormField fields n with
    | .error _ =>
      let r := applyFormValues fields rest
      ⟨r.fields, n :: r.warnings, r.written⟩
    | .ok f =>
      match jsSetFieldValue f v with
      | .error _ =>
        let r := applyFormValues fields rest
        ⟨r.fields, n :: r.warnings, r.written⟩
      | .ok none => applyFormValues fields rest
      | .ok (some f') =>
        let r := applyFormValues (replaceFormField fields n f') rest
        ⟨r.fields, r.warnings, n :: r.written⟩

/-- Kind of a form field (its pdf-lib class). -/
inductive FieldKind where
  | text
  | checkbox
  | dropdown
  | radio
  | button
  | optionList
deriving DecidableEq

/-- The write-relevant immutable part of a field: name, kind, options and
max length. Writes change only values, never these. -/
structure FieldStatics where
  name : String
  kind : FieldKind
  options : List String
  maxLength : Option Nat
deriving DecidableEq

/-- Statics of a field. -/
def PDFField.statics : PDFField → FieldStatics
  | .textField n _ ml => ⟨n, .text, [], ml⟩
  | .checkBox n _ => ⟨n, .checkbox, [], none⟩
  | .dropdown n opts _ => ⟨n, .dropdown, opts, none⟩
  | .radioGroup n opts _ => ⟨n, .radio, opts, none⟩
  | .button n => ⟨n, .button, [], none⟩
  | .optionList n opts _ => ⟨n, .optionList, opts, none⟩

/-- Outcome classification of one attempted field write. -/
inductive WriteOutcome where
  | written
  | thrown
  | skipped
deriving DecidableEq

/-- Outcome of `jsSetFieldValue`, computed from the field's statics alone. -/
def writeOutcome (st : FieldStatics) (v : JSValue) : WriteOutcome :=
  match st.kind, v with
  | .text, .str s =>
    match st.maxLength with
    | some m => if m < s.length then .thrown else .written
    | none => .written
  | .checkbox, .bool _ => .written
  | .dropdown, .strList l =>
    if l.length ≠ 0 then
      if l.all (st.options.contains ·) then .written else .thrown
    else .skipped
  | .dropdown, .str s => if st.options.contains s then .written else .thrown
  | .radio, .str s => if st.options.contains s then .written else .thrown
  | .optionList, .strList l =>
    if l.all (st.options.contains ·) then .written else .thrown
  | _, _ => .skipped

/-- Classification of an `Except`-valued write result. -/
def classifyWrite : Except String (Option PDFField) → WriteOutcome
  | .error _ => .thrown
  | .ok none => .skipped
  | .ok (some _) => .written

/-- Statics of the field found by name, if any. -/
def staticsAt (fields : List PDFField) (n : String) : Option FieldStatics :=
  (fields.find? (fun f => f.name = n)).map PDFField.statics

/-! ## Theorems -/

/-- C5: converting a screen point to PDF space (divide by scale) and back
(multiply by the same scale) reproduces the point exactly, for any positive
scale, over exact arithmetic. -/
theorem screen_pdf_roundtrip (scale px py : ℚ) (h : 0 < scale) :
    pdfToScreen scale (screenToPdf scale (px, py)) = (px, py) := by
  have hne : scale ≠ 0 := ne_of_gt h
  simp [screenToPdf, pdfToScreen, div_mul_cancel₀, hne]

/-- Witness for `screen_pdf_roundtrip` at scale 2 and point (7, 3). -/
theorem screen_pdf_roundtrip_witness :
    (0 : ℚ) < 2 ∧ pdfToScreen 2 (screenToPdf 2 (7, 3)) = (7, 3) :=
  ⟨by norm_num, screen_pdf_roundtrip 2 7 3 (by norm_num)⟩

/-- C3: pointer-down in text mode resolves in the fixed priority form
field, then existing annotation, then empty canvas. Hitting a form field
changes nothing; hitting an annotation always enters the drag state with
the pointer-to-origin offset and leaves `activeTextAnn` untouched
(no new placement session and hence no duplicate annotation); only hitting
neither opens a new placing session at the click position. -/
theorem text_mode_hit_precedence (target : HitTarget) (x y : ℚ) (page : Int)
    (st : ViewerState) :
    (target.formField = true → pointerDown Mode.text target x y page st = st) ∧
    (∀ ann, target.formField = false → target.annotation = some ann →
      pointerDown Mode.text target x y page st =
        { st with
          draggingAnn := some ann.id
          dragOffset := (x - ann.x, y - ann.y) }) ∧
    (target.formField = false → target.annotation = none →
      pointerDown Mode.text target x y page st =
        { st with activeTextAnn := some ⟨x, y, "", page⟩ }) := by
  refine ⟨fun hf => ?_, fun ann hf ha => ?_, fun hf ha => ?_⟩
  · simp [pointerDown, hf]
  · simp [pointerDown, handleTextAnnotMouseDown, hf, ha]
  · simp [pointerDown, hf, ha]

/-- Witness for `text_mode_hit_precedence`: a click at (12, 25) on an
annotation at (10, 20) starts a drag with offset (2, 5). -/
theorem text_mode_hit_precedence_witness :
    pointerDown Mode.text ⟨false, some ⟨"t1", 10, 20, "hi", 14, 1⟩⟩ 12 25 1
        initViewerState =
      { initViewerState with
        draggingAnn := some "t1"
        dragOffset := (2, 5) } := by
  have h :=
    (text_mode_hit_precedence ⟨false, some ⟨"t1", 10, 20, "hi", 14, 1⟩⟩ 12 25 1
        initViewerState).2.1 ⟨"t1", 10, 20, "hi", 14, 1⟩ rfl rfl
  rw [h]
  norm_num

/-- C7: while a placement session is live, a length-1 key appends to the
buffer, Backspace drops the last character, Enter closes the session and
commits exactly when the trimmed buffer is nonempty, and Escape closes the
session without committing. -/
theorem placing_text_keys (st : ViewerState) (p : PlacingState)
    (anns : List TextAnnot) (now : Nat)
    (hact : st.activeTextAnn = some p) :
    (∀ key : String, key.length = 1 →
      handleKeyDown key st anns now =
        ({ st with activeTextAnn := some { p with text := p.text ++ key } },
         anns)) ∧
    handleKeyDown "Backspace" st anns now =
      ({ st with activeTextAnn := some { p with text := jsDropLast p.text } },
       anns) ∧
    (handleKeyDown "Enter" st anns now).1.activeTextAnn = none ∧
    ((handleKeyDown "Enter" st anns now).2 =
        anns ++ [⟨mkTextId now, p.x, p.y, p.text, 14, p.page⟩] ↔
      jsTrim p.text ≠ "") ∧
    handleKeyDown "Escape" st anns now =
      ({ st with activeTextAnn := none }, anns) := by
  refine ⟨fun key hkey => ?_, ?_, ?_, ?_, ?_⟩
  · have h1 : key ≠ "Enter" := by intro h; rw [h] at hkey; exact absurd hkey (by decide)
    have h2 : key ≠ "Escape" := by intro h; rw [h] at hkey; exact absurd hkey (by decide)
    have h3 : key ≠ "Backspace" := by intro h; rw [h] at hkey; exact absurd hkey (by decide)
    simp [handleKeyDown, hact, h1, h2, h3, hkey]
  · simp [handleKeyDown, hact]
  · by_cases ht : jsTrim p.text = "" <;> simp [handleKeyDown, hact, ht]
  · by_cases ht : jsTrim p.text = "" <;> simp [handleKeyDown, hact, ht]
  · simp [handleKeyDown, hact]

/-- Witness for `placing_text_keys`: typing `c` over buffer `ab` yields
buffer `abc`. -/
theorem placing_text_keys_witness :
    handleKeyDown "c"
        { initViewerState with activeTextAnn := some ⟨5, 6, "ab", 1⟩ }
        [] 7 =
      ({ initViewerState with activeTextAnn := some ⟨5, 6, "abc", 1⟩ },
       []) := by
  have h :=
    (placing_text_keys
        { initViewerState with activeTextAnn := some ⟨5, 6, "ab", 1⟩ }
        ⟨5, 6, "ab", 1⟩ [] 7 rfl).1 "c" (by decide)
  rw [h]
  rfl

/-- C8: form-field introspection degrades to `hasFormFields = false` with
an empty field list and an empty value map both on a parse failure and on a
document with no fields, and `hasFormFields` is false only in those
cases — no error is ever propagated to the caller. -/
theorem detect_form_fields_degrades (e : String) (fields : List PDFField) :
    detectFormFields (.error e) = ⟨false, [], []⟩ ∧
    detectFormFields (.ok []) = ⟨false, [], []⟩ ∧
    ((detectFormFields (.ok fields)).hasFormFields = false ↔ fields = []) := by
  refine ⟨rfl, rfl, ?_⟩
  cases fields <;> simp [detectFormFields]

/-- Helper: a pointer-move during a drawing gesture recomputes the draft
as the min/abs envelope of start and current point. -/
theorem handleMouseMove_drawing (sx sy cx cy : ℚ) (cb : DraftBox) :
    handleMouseMove cx cy (drawingState sx sy cb) =
      drawingState sx sy ⟨min sx cx, min sy cy, |cx - sx|, |cy - sy|⟩ := rfl

/-- Helper: pointer-moves only rewrite `currentBox`, and only the last one
counts. -/
theorem foldl_moves (sx sy : ℚ) (ms : List (ℚ × ℚ)) (cb : DraftBox) :
    ms.foldl (fun st m => handleMouseMove m.1 m.2 st) (drawingState sx sy cb) =
      drawingState sx sy
        (ms.foldl (fun _ m => ⟨min sx m.1, min sy m.2, |m.1 - sx|, |m.2 - sy|⟩) cb) := by
  induction ms generalizing cb with
  | nil => rfl
  | cons m ms ih =>
    rw [List.foldl_cons, List.foldl_cons, handleMouseMove_drawing, ih]

/-- Helper: a box-mode press at `(sx, sy)` followed by moves ending at
`(cx, cy)` leaves the component mid-draw with the envelope draft. -/
theorem boxGesture_append (sx sy cx cy : ℚ) (ms : List (ℚ × ℚ)) :
    boxGesture sx sy (ms ++ [(cx, cy)]) =
      drawingState sx sy ⟨min sx cx, min sy cy, |cx - sx|, |cy - sy|⟩ := by
  have hstart : pointerDown Mode.box ⟨false, none⟩ sx sy 1 initViewerState =
      drawingState sx sy ⟨sx, sy, 0, 0⟩ := rfl
  rw [boxGesture, hstart, foldl_moves, List.foldl_append]
  rfl

/-- Helper: `round1` always produces a whole number of tenths. -/
theorem round1_isTenth (q : ℚ) : isTenth (round1 q) := ⟨_, rfl⟩

/-- Helper: rounding to one decimal keeps endpoints separated by more than
5 in strict order. -/
theorem round1_lt_of_gap (a w : ℚ) (hw : 5 < w) :
    round1 a < round1 (a + w) := by
  have h1 : (⌊a * 10 + 1 / 2⌋ + 50 : ℤ) ≤ ⌊(a + w) * 10 + 1 / 2⌋ := by
    apply Int.le_floor.mpr
    push_cast
    have hf : (⌊a * 10 + 1 / 2⌋ : ℚ) ≤ a * 10 + 1 / 2 := Int.floor_le _
    nlinarith
  have h2 : (⌊a * 10 + 1 / 2⌋ : ℚ) < (⌊(a + w) * 10 + 1 / 2⌋ : ℚ) := by
    have : (⌊a * 10 + 1 / 2⌋ : ℤ) < ⌊(a + w) * 10 + 1 / 2⌋ := by omega
    exact_mod_cast this
  unfold round1
  exact div_lt_div_of_pos_right h2 (by norm_num)

/-- C1 (amended): a completed box-mode drag with extent strictly greater
than 5 in both directions adds exactly one box, with coordinates the
one-decimal roundings of the envelope corners, ordered `x1 < x2`,
`y1 < y2`; a drag whose extent is 5 or less in either direction adds
nothing. -/
theorem box_commit_threshold (sx sy cx cy : ℚ) (ms : List (ℚ × ℚ))
    (boxes : List BoundingBox) (now : Nat) :
    (5 < |cx - sx| ∧ 5 < |cy - sy| →
      dragRelease sx sy (ms ++ [(cx, cy)]) boxes now =
        boxes ++
          [{ id := mkBoxId now
             x1 := round1 (min sx cx)
             y1 := round1 (min sy cy)
             x2 := round1 (min sx cx + |cx - sx|)
             y2 := round1 (min sy cy + |cy - sy|)
             label := some ("Box " ++ natToString (boxes.length + 1)) }] ∧
      round1 (min sx cx) < round1 (min sx cx + |cx - sx|) ∧
      round1 (min sy cy) < round1 (min sy cy + |cy - sy|) ∧
      isTenth (round1 (min sx cx)) ∧ isTenth (round1 (min sy cy)) ∧
      isTenth (round1 (min sx cx + |cx - sx|)) ∧
      isTenth (round1 (min sy cy + |cy - sy|))) ∧
    (¬(5 < |cx - sx| ∧ 5 < |cy - sy|) →
      dragRelease sx sy (ms ++ [(cx, cy)]) boxes now = boxes) := by
  have hrel : dragRelease sx sy (ms ++ [(cx, cy)]) boxes now =
      (handleMouseUp
        (drawingState sx sy ⟨min sx cx, min sy cy, |cx - sx|, |cy - sy|⟩)
        boxes now).2 := by
    rw [dragRelease, boxGesture_append]
  constructor
  · intro hthr
    refine ⟨?_, round1_lt_of_gap _ _ hthr.1, round1_lt_of_gap _ _ hthr.2,
      round1_isTenth _, round1_isTenth _, round1_isTenth _, round1_isTenth _⟩
    rw [hrel]
    simp [handleMouseUp, drawingState, hthr]
  · intro hthr
    rw [hrel]
    simp [handleMouseUp, drawingState, hthr]

/-- Witness for `box_commit_threshold`: a drag from (0, 0) to (10, 20)
commits one box. -/
theorem box_commit_threshold_witness :
    ((5 : ℚ) < |(10 : ℚ) - 0| ∧ (5 : ℚ) < |(20 : ℚ) - 0|) ∧
    dragRelease 0 0 [(10, 20)] [] 5 =
      [{ id := mkBoxId 5
         x1 := round1 (min 0 10)
         y1 := round1 (min 0 20)
         x2 := round1 (min 0 10 + |(10 : ℚ) - 0|)
         y2 := round1 (min 0 20 + |(20 : ℚ) - 0|)
         label := some ("Box " ++ natToString 1) }] := by
  have hyp : (5 : ℚ) < |(10 : ℚ) - 0| ∧ (5 : ℚ) < |(20 : ℚ) - 0| := by
    constructor <;> rw [abs_of_nonneg (by norm_num)] <;> norm_num
  exact ⟨hyp, ((box_commit_threshold 0 0 10 20 [] [] 5).1 hyp).1⟩

/-- C1 counterexample: a drag whose release extent is exactly the claimed
5-pixel threshold in both directions (from (0,0) to (5,5)) satisfies
"extent at least 5" yet adds no bounding box, because the source requires
strict inequality (`width > 5 && height > 5`). -/
theorem box_threshold_counterexample :
    (5 : ℚ) ≤ |(5 : ℚ) - 0| ∧ (5 : ℚ) ≤ |(5 : ℚ) - 0| ∧
    dragRelease 0 0 [(5, 5)] [] 0 = [] := by
  have habs : |(5 : ℚ) - 0| = 5 := by rw [abs_of_nonneg] <;> norm_num
  refine ⟨le_of_eq habs.symm, le_of_eq habs.symm, ?_⟩
  have hrel : dragRelease 0 0 ([] ++ [((5 : ℚ), (5 : ℚ))]) [] 0 =
      (handleMouseUp (drawingState 0 0 ⟨min 0 5, min 0 5, |(5 : ℚ) - 0|, |(5 : ℚ) - 0|⟩)
        [] 0).2 := by
    rw [dragRelease, boxGesture_append]
  rw [List.nil_append] at hrel
  rw [hrel]
  simp [handleMouseUp, drawingState, habs]

/-- C2 (intended contract violated by the code): the bounding-box pass of
the export draws every rectangle on page index 0, whatever the document's
page count — boxes carry no page field at all in this variant, so none can
be drawn "on its own page". -/
theorem boxes_drawn_on_first_page (pages : List ℚ) (boxes : List BoundingBox)
    (ops : List DrawRectOp) (h : exportBoxRectOps pages boxes = some ops) :
    ∀ op ∈ ops, op.pageIndex = 0 := by
  cases pages with
  | nil =>
    cases boxes with
    | nil =>
      simp [exportBoxRectOps] at h
      subst h
      intro op hop
      simp at hop
    | cons b bs => simp [exportBoxRectOps] at h
  | cons h0 t =>
    have hops : ops = boxes.map (boundingBoxRectOp h0) := by
      have := h
      simp [exportBoxRectOps] at this
      exact this.symm
    subst hops
    intro op hop
    rcases List.mem_map.mp hop with ⟨b, _, rfl⟩
    rfl

/-- Witness for `boxes_drawn_on_first_page`: in a two-page document a box
drawn between (10,10) and (20,20) lands on page index 0 (the rectangle at
PDF y 772 of the first page), never on its own page. -/
theorem boxes_drawn_on_first_page_witness :
    exportBoxRectOps [792, 612] [⟨"box-1", 10, 10, 20, 20, none⟩] =
      some [⟨0, 10, 772, 10, 10⟩] ∧
    ∀ op ∈ [(⟨0, 10, 772, 10, 10⟩ : DrawRectOp)], op.pageIndex = 0 := by
  have he : exportBoxRectOps [792, 612] [⟨"box-1", 10, 10, 20, 20, none⟩] =
      some [⟨0, 10, 772, 10, 10⟩] := by
    simp only [exportBoxRectOps, boundingBoxRectOp, List.map]
    norm_num [min_def, abs_of_nonpos]
  exact ⟨he, boxes_drawn_on_first_page _ _ _ he⟩

/-- C4: a text annotation whose 1-based page is valid for the document is
drawn exactly once, on its own page, at its stored x and at
`pdfY = pageHeight - y`, in Helvetica, black, at its stored font size —
and the text pass draws nothing else. -/
theorem text_annotations_drawn (pages : List ℚ) (anns : List TextAnnot) :
    (∀ ann ∈ anns, 0 ≤ ann.page - 1 → ann.page - 1 < (pages.length : Int) →
      textAnnotationOp (ann.page - 1).toNat (pages.getD (ann.page - 1).toNat 0)
          ann ∈ exportTextOps pages anns) ∧
    (∀ op ∈ exportTextOps pages anns, ∃ ann ∈ anns,
      0 ≤ ann.page - 1 ∧ ann.page - 1 < (pages.length : Int) ∧
      op = textAnnotationOp (ann.page - 1).toNat
        (pages.getD (ann.page - 1).toNat 0) ann) := by
  constructor
  · intro ann hmem h0 hlen
    refine List.mem_filterMap.mpr ⟨ann, hmem, ?_⟩
    simp [textAnnotationDraw, h0, hlen]
  · intro op hop
    rcases List.mem_filterMap.mp hop with ⟨ann, hmem, hf⟩
    by_cases hc : 0 ≤ ann.page - 1 ∧ ann.page - 1 < (pages.length : Int)
    · refine ⟨ann, hmem, hc.1, hc.2, ?_⟩
      rw [textAnnotationDraw, if_pos hc] at hf
      exact (Option.some.inj hf).symm
    · rw [textAnnotationDraw, if_neg hc] at hf
      cases hf

/-- Witness for `text_annotations_drawn`: the spec scenario — text
"Hello" stored at y = 50 on page 1 of a 792-unit-high page is drawn at
PDF y = 742. -/
theorem text_annotations_drawn_witness :
    (⟨0, 50, 742, "Hello", 14, "Helvetica", (0, 0, 0)⟩ : DrawTextOp) ∈
      exportTextOps [792] [⟨"t1", 50, 50, "Hello", 14, 1⟩] := by
  have h := (text_annotations_drawn [792] [⟨"t1", 50, 50, "Hello", 14, 1⟩]).1
    ⟨"t1", 50, 50, "Hello", 14, 1⟩ (by simp) (by norm_num) (by norm_num)
  have heq : textAnnotationOp ((1 : Int) - 1).toNat
      (([(792 : ℚ)]).getD ((1 : Int) - 1).toNat 0)
      ⟨"t1", 50, 50, "Hello", 14, 1⟩ =
      (⟨0, 50, 742, "Hello", 14, "Helvetica", (0, 0, 0)⟩ : DrawTextOp) := by
    simp [textAnnotationOp]
    norm_num
  rwa [heq] at h

/-- Helper: decimal digit characters determine the digit. -/
theorem digitChar_inj_lt : ∀ a < 10, ∀ b < 10,
    Nat.digitChar a = Nat.digitChar b → a = b := by decide

/-- Helper: mapping `digitChar` over digit lists (all entries below 10) is
injective. -/
theorem map_digitChar_inj : ∀ (l1 l2 : List Nat), (∀ d ∈ l1, d < 10) →
    (∀ d ∈ l2, d < 10) → l1.map Nat.digitChar = l2.map Nat.digitChar →
    l1 = l2
  | [], [], _, _, _ => rfl
  | [], _ :: _, _, _, h => by simp at h
  | _ :: _, [], _, _, h => by simp at h
  | a :: l1, b :: l2, h1, h2, h => by
    simp only [List.map_cons, List.cons.injEq] at h
    have hab : a = b :=
      digitChar_inj_lt a (h1 a (by simp)) b (h2 b (by simp)) h.1
    have htl := map_digitChar_inj l1 l2 (fun d hd => h1 d (by simp [hd]))
      (fun d hd => h2 d (by simp [hd])) h.2
    rw [hab, htl]

/-- Helper: the decimal rendering of a natural number is injective. -/
theorem decimalChars_inj (m n : Nat) (h : decimalChars m = decimalChars n) :
    m = n := by
  have key : ∀ k : Nat, k ≠ 0 →
      ((Nat.digits 10 k).map Nat.digitChar).reverse = ['0'] → False := by
    intro k hk hrev
    have hmap : (Nat.digits 10 k).map Nat.digitChar = ['0'] := by
      have := congrArg List.reverse hrev
      simpa using this
    have hdig : Nat.digits 10 k = [0] := by
      apply map_digitChar_inj _ [0]
        (fun d hd => Nat.digits_lt_base (by norm_num) hd) (by simp)
      simpa using hmap
    have hne : Nat.digits 10 k ≠ [] := Nat.digits_ne_nil_iff_ne_zero.mpr hk
    have hlast : (Nat.digits 10 k).getLast hne = 0 := by
      have haux : ∀ (l : List Nat) (hl : l ≠ []), l = [0] → l.getLast hl = 0 := by
        rintro l hl rfl; rfl
      exact haux _ _ hdig
    exact Nat.getLast_digit_ne_zero 10 hk hlast
  by_cases hm : m = 0 <;> by_cases hn : n = 0
  · rw [hm, hn]
  · rw [decimalChars, if_pos hm, decimalChars, if_neg hn] at h
    exact absurd h.symm (fun hc => key n hn hc)
  · rw [decimalChars, if_neg hm, decimalChars, if_pos hn] at h
    exact absurd h (fun hc => key m hm hc)
  · rw [decimalChars, if_neg hm, decimalChars, if_neg hn] at h
    have hmap := List.reverse_injective h
    have hdig := map_digitChar_inj _ _
      (fun d hd => Nat.digits_lt_base (by norm_num) hd)
      (fun d hd => Nat.digits_lt_base (by norm_num) hd) hmap
    exact Nat.digits.injective 10 hdig

/-- Helper: the decimal string of a natural number is injective. -/
theorem natToString_inj (m n : Nat) (h : natToString m = natToString n) :
    m = n := by
  apply decimalChars_inj
  have := congrArg String.data h
  simpa [natToString] using this

/-- Helper: equal box identifiers come from equal timestamps. -/
theorem mkBoxId_inj (m n : Nat) (h : mkBoxId m = mkBoxId n) : m = n := by
  apply natToString_inj
  have hd := congrArg String.data h
  rw [mkBoxId, mkBoxId, String.data_append, String.data_append] at hd
  exact String.ext (List.append_cancel_left hd)

/-- Helper: equal text identifiers come from equal timestamps. -/
theorem mkTextId_inj (m n : Nat) (h : mkTextId m = mkTextId n) : m = n := by
  apply natToString_inj
  have hd := congrArg String.data h
  rw [mkTextId, mkTextId, String.data_append, String.data_append] at hd
  exact String.ext (List.append_cancel_left hd)

/-- Helper: a box identifier is never a text identifier (the prefixes
differ). -/
theorem mkBoxId_ne_mkTextId (m n : Nat) : mkBoxId m ≠ mkTextId n := by
  intro h
  have hd := congrArg String.data h
  rw [mkBoxId, mkTextId, String.data_append, String.data_append] at hd
  have hb : "box-".data = ['b', 'o', 'x', '-'] := rfl
  have ht : "text-".data = ['t', 'e', 'x', 't', '-'] := rfl
  rw [hb, ht] at hd
  simp at hd

/-- Helper: every generated identifier is a box id of a box-creation
timestamp or a text id of a text-creation timestamp. -/
theorem mem_generatedIds (tr : List StoreEvent) (s : String)
    (h : s ∈ generatedIds tr) :
    (∃ t ∈ boxStamps tr, s = mkBoxId t) ∨
    (∃ t ∈ textStamps tr, s = mkTextId t) := by
  induction tr with
  | nil => simp [generatedIds] at h
  | cons e rest ih =>
    cases e with
    | addBox t =>
      rw [generatedIds, List.mem_cons] at h
      rcases h with h | h
      · exact Or.inl ⟨t, by simp [boxStamps], h⟩
      · rcases ih h with ⟨t', ht', hs⟩ | ⟨t', ht', hs⟩
        · exact Or.inl ⟨t', by simp [boxStamps, ht'], hs⟩
        · exact Or.inr ⟨t', by simp [textStamps, ht'], hs⟩
    | addText t =>
      rw [generatedIds, List.mem_cons] at h
      rcases h with h | h
      · exact Or.inr ⟨t, by simp [textStamps], h⟩
      · rcases ih h with ⟨t', ht', hs⟩ | ⟨t', ht', hs⟩
        · exact Or.inl ⟨t', by simp [boxStamps, ht'], hs⟩
        · exact Or.inr ⟨t', by simp [textStamps, ht'], hs⟩
    | removeBox i =>
      rw [generatedIds] at h
      rcases ih h with ⟨t', ht', hs⟩ | ⟨t', ht', hs⟩
      · exact Or.inl ⟨t', by simp [boxStamps, ht'], hs⟩
      · exact Or.inr ⟨t', by simp [textStamps, ht'], hs⟩
    | removeText i =>
      rw [generatedIds] at h
      rcases ih h with ⟨t', ht', hs⟩ | ⟨t', ht', hs⟩
      · exact Or.inl ⟨t', by simp [boxStamps, ht'], hs⟩
      · exact Or.inr ⟨t', by simp [textStamps, ht'], hs⟩

/-- C6 (amended): over the lifetime of a document, all identifiers
generated by box and text creations are pairwise distinct — so no id ever
recurs, even after a deletion — provided no two box creations and no two
text creations observe the same `Date.now()` millisecond. -/
theorem generated_ids_nodup (tr : List StoreEvent)
    (hb : (boxStamps tr).Nodup) (ht : (textStamps tr).Nodup) :
    (generatedIds tr).Nodup := by
  induction tr with
  | nil => simp [generatedIds]
  | cons e rest ih =>
    cases e with
    | addBox t =>
      rw [boxStamps, List.nodup_cons] at hb
      rw [generatedIds, List.nodup_cons]
      refine ⟨fun hmem => ?_, ih hb.2 ht⟩
      rcases mem_generatedIds rest _ hmem with ⟨t', ht', hs⟩ | ⟨t', ht', hs⟩
      · exact hb.1 (mkBoxId_inj t t' hs ▸ ht')
      · exact mkBoxId_ne_mkTextId t t' hs
    | addText t =>
      rw [textStamps, List.nodup_cons] at ht
      rw [generatedIds, List.nodup_cons]
      refine ⟨fun hmem => ?_, ih hb ht.2⟩
      rcases mem_generatedIds rest _ hmem with ⟨t', ht', hs⟩ | ⟨t', ht', hs⟩
      · exact mkBoxId_ne_mkTextId t' t hs.symm
      · exact ht.1 (mkTextId_inj t t' hs ▸ ht')
    | removeBox i => exact ih hb ht
    | removeText i => exact ih hb ht

/-- Witness for `generated_ids_nodup`: a trace of two box creations and a
text creation at distinct-per-collection timestamps yields distinct ids. -/
theorem generated_ids_nodup_witness :
    (boxStamps [StoreEvent.addBox 1, StoreEvent.addText 1,
      StoreEvent.addBox 2]).Nodup ∧
    (textStamps [StoreEvent.addBox 1, StoreEvent.addText 1,
      StoreEvent.addBox 2]).Nodup ∧
    (generatedIds [StoreEvent.addBox 1, StoreEvent.addText 1,
      StoreEvent.addBox 2]).Nodup := by
  have h1 : (boxStamps [StoreEvent.addBox 1, StoreEvent.addText 1,
      StoreEvent.addBox 2]).Nodup := by decide
  have h2 : (textStamps [StoreEvent.addBox 1, StoreEvent.addText 1,
      StoreEvent.addBox 2]).Nodup := by decide
  exact ⟨h1, h2, generated_ids_nodup _ h1 h2⟩

/-- C6 counterexample: two box creations that observe the same
`Date.now()` value generate the same identifier, so the generated ids are
not unique. -/
theorem duplicate_id_counterexample :
    ¬ (generatedIds [StoreEvent.addBox 100, StoreEvent.addBox 100]).Nodup := by
  simp [generatedIds]

/-- Helper: a successful field write never changes the field's statics
(name, kind, options, max length). -/
theorem jsSetFieldValue_statics (f f' : PDFField) (v : JSValue)
    (h : jsSetFieldValue f v = .ok (some f')) : f'.statics = f.statics := by
  cases f <;> cases v <;>
    simp only [jsSetFieldValue] at h <;>
    (try split at h) <;> (try split at h) <;>
    simp_all [PDFField.statics] <;>
    (subst h; rfl)

/-- Helper: the outcome of a field write is a function of the field's
statics and the value alone. -/
theorem classify_jsSetFieldValue (f : PDFField) (v : JSValue) :
    classifyWrite (jsSetFieldValue f v) = writeOutcome f.statics v := by
  cases f <;> cases v <;>
    simp only [jsSetFieldValue, PDFField.statics, writeOutcome] <;>
    (try split) <;> (try split) <;>
    simp [classifyWrite]

/-- Helper: a field found by name bears that name. -/
theorem find?_name_eq (fields : List PDFField) (n : String) (f : PDFField)
    (h : fields.find? (fun g => g.name = n) = some f) : f.name = n := by
  have := List.find?_some h
  simpa using this

/-- Helper: replacing by a field of the same name leaves the name list
unchanged. -/
theorem replaceFormField_names (fields : List PDFField) (n : String)
    (f' : PDFField) (hf' : f'.name = n) :
    (replaceFormField fields n f').map PDFField.name =
      fields.map PDFField.name := by
  induction fields with
  | nil => rfl
  | cons g rest ih =>
    by_cases hg : g.name = n <;>
      simp [replaceFormField, hg, hf'] <;>
      simpa [replaceFormField] using ih

/-- Helper: replacing a name that appears nowhere is the identity. -/
theorem replaceFormField_id (fields : List PDFField) (n : String)
    (f' : PDFField) (h : ∀ g ∈ fields, g.name ≠ n) :
    replaceFormField fields n f' = fields := by
  induction fields with
  | nil => rfl
  | cons g rest ih =>
    simp [replaceFormField, h g (by simp)]
    simpa [replaceFormField] using ih fun g hg => h g (by simp [hg])

/-- Helper: with document-unique names, writing a statics-preserving
replacement into the field list leaves every name's statics unchanged. -/
theorem staticsAt_replaceFormField (fields : List PDFField) (n : String)
    (f f' : PDFField) (hnodup : (fields.map PDFField.name).Nodup)
    (hfind : fields.find? (fun g => g.name = n) = some f)
    (hst : f'.statics = f.statics) (m : String) :
    staticsAt (replaceFormField fields n f') m = staticsAt fields m := by
  induction fields with
  | nil => simp at hfind
  | cons g rest ih =>
    rw [List.map_cons, List.nodup_cons] at hnodup
    by_cases hg : g.name = n
    · have hfg : f = g := by
        rw [List.find?_cons_of_pos _ (by simp [hg])] at hfind
        exact (Option.some.inj hfind).symm
      subst hfg
      have hrest : replaceFormField rest n f' = rest := by
        refine replaceFormField_id rest n f' fun g' hg' hne => ?_
        have hfg' : f.name = g'.name := by rw [hg, hne]
        exact hnodup.1 (hfg' ▸ List.mem_map_of_mem _ hg')
      have hname' : f'.name = f.name := by
        have hs : f'.statics.name = f.statics.name := by rw [hst]
        cases f <;> cases f' <;>
          simpa [PDFField.statics, PDFField.name] using hs
      have hl : replaceFormField (f :: rest) n f' = f' :: rest := by
        rw [replaceFormField, List.map_cons, if_pos hg]
        exact congrArg _ hrest
      rw [hl]
      by_cases hm : f.name = m
      · rw [staticsAt, staticsAt,
          List.find?_cons_of_pos _ (by simp [hname', hm]),
          List.find?_cons_of_pos _ (by simp [hm])]
        simp [hst]
      · rw [staticsAt, staticsAt,
          List.find?_cons_of_neg _ (by simp [hname', hm]),
          List.find?_cons_of_neg _ (by simp [hm])]
    · have hfind' : rest.find? (fun g => g.name = n) = some f := by
        rwa [List.find?_cons_of_neg _ (by simp [hg])] at hfind
      have hl : replaceFormField (g :: rest) n f' =
          g :: replaceFormField rest n f' := by
        rw [replaceFormField, List.map_cons, if_neg hg]
        rfl
      rw [hl]
      by_cases hm : g.name = m
      · rw [staticsAt, staticsAt,
          List.find?_cons_of_pos _ (by simp [hm]),
          List.find?_cons_of_pos _ (by simp [hm])]
      · rw [staticsAt, staticsAt,
          List.find?_cons_of_neg _ (by simp [hm]),
          List.find?_cons_of_neg _ (by simp [hm])]
        exact ih hnodup.2 hfind'

/-- Helper: every warned name is the key of some processed entry. -/
theorem applyFormValues_warnings_sub (fields : List PDFField)
    (entries : List (String × JSValue)) :
    ∀ s ∈ (applyFormValues fields entries).warnings,
      s ∈ entries.map Prod.fst := by
  induction entries generalizing fields with
  | nil => simp [applyFormValues]
  | cons nv rest ih =>
    obtain ⟨n, v⟩ := nv
    intro s hs
    rcases hf : fields.find? (fun g => g.name = n) with _ | f
    · simp only [applyFormValues, getFormField, hf] at hs
      rcases List.mem_cons.mp hs with rfl | hs
      · simp
      · simpa using Or.inr (ih fields s hs)
    · simp only [applyFormValues, getFormField, hf] at hs
      rcases hw : jsSetFieldValue f v with e | o
      · rw [hw] at hs
        rcases List.mem_cons.mp hs with rfl | hs
        · simp
        · simpa using Or.inr (ih fields s hs)
      · cases o with
        | none =>
          rw [hw] at hs
          simpa using Or.inr (ih fields s hs)
        | some f' =>
          rw [hw] at hs
          simpa using Or.inr (ih _ s hs)

/-- Helper: every written name is the key of some processed entry. -/
theorem applyFormValues_written_sub (fields : List PDFField)
    (entries : List (String × JSValue)) :
    ∀ s ∈ (applyFormValues fields entries).written,
      s ∈ entries.map Prod.fst := by
  induction entries generalizing fields with
  | nil => simp [applyFormValues]
  | cons nv rest ih =>
    obtain ⟨n, v⟩ := nv
    intro s hs
    rcases hf : fields.find? (fun g => g.name = n) with _ | f
    · simp only [applyFormValues, getFormField, hf] at hs
      simpa using Or.inr (ih fields s hs)
    · simp only [applyFormValues, getFormField, hf] at hs
      rcases hw : jsSetFieldValue f v with e | o
      · rw [hw] at hs
        simpa using Or.inr (ih fields s hs)
      · cases o with
        | none =>
          rw [hw] at hs
          simpa using Or.inr (ih fields s hs)
        | some f' =>
          rw [hw] at hs
          rcases List.mem_cons.mp hs with rfl | hs
          · simp
          · simpa using Or.inr (ih _ s hs)

/-- Helper: a field's statics carry its name. -/
theorem statics_name (f : PDFField) : f.statics.name = f.name := by
  cases f <;> rfl

/-- C9 (amended): the export's form pass processes every entry of the
value map independently and never aborts: an entry whose name resolves to
a field and whose typed write succeeds is written; an entry whose name
does not resolve, or whose write throws, is skipped with a warning; an
entry whose value shape matches no write branch for the field's kind is
skipped silently (no write, no warning). Field names are document-unique
and entry keys are map keys, hence both without duplicates. -/
theorem form_values_write_outcomes (fields : List PDFField)
    (entries : List (String × JSValue))
    (hnodup : (fields.map PDFField.name).Nodup)
    (hkeys : (entries.map Prod.fst).Nodup) :
    ∀ nv ∈ entries,
      (staticsAt fields nv.1 = none →
        nv.1 ∈ (applyFormValues fields entries).warnings ∧
        nv.1 ∉ (applyFormValues fields entries).written) ∧
      (∀ st, staticsAt fields nv.1 = some st →
        (writeOutcome st nv.2 = WriteOutcome.written →
          nv.1 ∈ (applyFormValues fields entries).written ∧
          nv.1 ∉ (applyFormValues fields entries).warnings) ∧
        (writeOutcome st nv.2 = WriteOutcome.thrown →
          nv.1 ∈ (applyFormValues fields entries).warnings ∧
          nv.1 ∉ (applyFormValues fields entries).written) ∧
        (writeOutcome st nv.2 = WriteOutcome.skipped →
          nv.1 ∉ (applyFormValues fields entries).warnings ∧
          nv.1 ∉ (applyFormValues fields entries).written)) := by
  induction entries generalizing fields with
  | nil => intro nv h; simp at h
  | cons hd rest ih =>
    obtain ⟨n0, v0⟩ := hd
    rw [List.map_cons, List.nodup_cons] at hkeys
    dsimp only at hkeys
    intro nv hmem
    rcases List.mem_cons.mp hmem with rfl | hmem
    · -- the entry under scrutiny is the head entry
      dsimp only
      have hnw : n0 ∉ (applyFormValues fields rest).warnings :=
        fun hw => hkeys.1 (applyFormValues_warnings_sub fields rest n0 hw)
      have hnr : n0 ∉ (applyFormValues fields rest).written :=
        fun hw => hkeys.1 (applyFormValues_written_sub fields rest n0 hw)
      rcases hf : fields.find? (fun g => g.name = n0) with _ | f
      · have hsta : staticsAt fields n0 = none := by simp [staticsAt, hf]
        have happ : applyFormValues fields ((n0, v0) :: rest) =
            ⟨(applyFormValues fields rest).fields,
             n0 :: (applyFormValues fields rest).warnings,
             (applyFormValues fields rest).written⟩ := by
          simp [applyFormValues, getFormField, hf]
        refine ⟨fun _ => ?_, fun st hst => ?_⟩
        · rw [happ]
          exact ⟨by simp, by simpa using hnr⟩
        · rw [hsta] at hst; cases hst
      · have hsta : staticsAt fields n0 = some f.statics := by
          simp [staticsAt, hf]
        refine ⟨fun hc => ?_, fun st hst => ?_⟩
        · rw [hsta] at hc; cases hc
        rw [hsta] at hst
        obtain rfl : st = f.statics := Option.some.inj hst.symm
        rcases hw : jsSetFieldValue f v0 with e | o
        · have hout : writeOutcome f.statics v0 = WriteOutcome.thrown := by
            rw [← classify_jsSetFieldValue, hw]; rfl
          have happ : applyFormValues fields ((n0, v0) :: rest) =
              ⟨(applyFormValues fields rest).fields,
               n0 :: (applyFormValues fields rest).warnings,
               (applyFormValues fields rest).written⟩ := by
            simp [applyFormValues, getFormField, hf, hw]
          rw [happ, hout]
          refine ⟨fun hc => ?_, fun _ => ⟨?_, ?_⟩, fun hc => ?_⟩
          · exact absurd hc (by decide)
          · simp
          · simpa using hnr
          · exact absurd hc (by decide)
        · cases o with
          | none =>
            have hout : writeOutcome f.statics v0 = WriteOutcome.skipped := by
              rw [← classify_jsSetFieldValue, hw]; rfl
            have happ : applyFormValues fields ((n0, v0) :: rest) =
                applyFormValues fields rest := by
              simp [applyFormValues, getFormField, hf, hw]
            rw [happ, hout]
            refine ⟨fun hc => ?_, fun hc => ?_, fun _ => ⟨hnw, hnr⟩⟩
            · exact absurd hc (by decide)
            · exact absurd hc (by decide)
          | some f' =>
            have hout : writeOutcome f.statics v0 = WriteOutcome.written := by
              rw [← classify_jsSetFieldValue, hw]; rfl
            have happ : applyFormValues fields ((n0, v0) :: rest) =
                ⟨(applyFormValues (replaceFormField fields n0 f') rest).fields,
                 (applyFormValues (replaceFormField fields n0 f') rest).warnings,
                 n0 :: (applyFormValues (replaceFormField fields n0 f') rest).written⟩ := by
              simp [applyFormValues, getFormField, hf, hw]
            have hnw' : n0 ∉
                (applyFormValues (replaceFormField fields n0 f') rest).warnings :=
              fun hc => hkeys.1
                (applyFormValues_warnings_sub (replaceFormField fields n0 f') rest n0 hc)
            rw [happ, hout]
            refine ⟨fun _ => ⟨?_, ?_⟩, fun hc => ?_, fun hc => ?_⟩
            · simp
            · simpa using hnw'
            · exact absurd hc (by decide)
            · exact absurd hc (by decide)
    · -- the entry under scrutiny sits in the tail
      have hne : nv.1 ≠ n0 := by
        intro h
        apply hkeys.1
        rw [← h]
        exact List.mem_map_of_mem Prod.fst hmem
      rcases hf : fields.find? (fun g => g.name = n0) with _ | f
      · have happ : applyFormValues fields ((n0, v0) :: rest) =
            ⟨(applyFormValues fields rest).fields,
             n0 :: (applyFormValues fields rest).warnings,
             (applyFormValues fields rest).written⟩ := by
          simp [applyFormValues, getFormField, hf]
        have ihr := ih fields hnodup hkeys.2 nv hmem
        rw [happ]
        refine ⟨fun hnone => ?_, fun st hst => ?_⟩
        · obtain ⟨h1, h2⟩ := ihr.1 hnone
          exact ⟨by simp [h1], by simpa using h2⟩
        · obtain ⟨hw1, hw2, hw3⟩ := ihr.2 st hst
          refine ⟨fun ho => ?_, fun ho => ?_, fun ho => ?_⟩
          · obtain ⟨h1, h2⟩ := hw1 ho
            exact ⟨by simpa using h1, by simp [hne, h2]⟩
          · obtain ⟨h1, h2⟩ := hw2 ho
            exact ⟨by simp [h1], by simpa using h2⟩
          · obtain ⟨h1, h2⟩ := hw3 ho
            exact ⟨by simp [hne, h1], by simpa using h2⟩
      · rcases hw : jsSetFieldValue f v0 with e | o
        · have happ : applyFormValues fields ((n0, v0) :: rest) =
              ⟨(applyFormValues fields rest).fields,
               n0 :: (applyFormValues fields rest).warnings,
               (applyFormValues fields rest).written⟩ := by
            simp [applyFormValues, getFormField, hf, hw]
          have ihr := ih fields hnodup hkeys.2 nv hmem
          rw [happ]
          refine ⟨fun hnone => ?_, fun st hst => ?_⟩
          · obtain ⟨h1, h2⟩ := ihr.1 hnone
            exact ⟨by simp [h1], by simpa using h2⟩
          · obtain ⟨hw1, hw2, hw3⟩ := ihr.2 st hst
            refine ⟨fun ho => ?_, fun ho => ?_, fun ho => ?_⟩
            · obtain ⟨h1, h2⟩ := hw1 ho
              exact ⟨by simpa using h1, by simp [hne, h2]⟩
            · obtain ⟨h1, h2⟩ := hw2 ho
              exact ⟨by simp [h1], by simpa using h2⟩
            · obtain ⟨h1, h2⟩ := hw3 ho
              exact ⟨by simp [hne, h1], by simpa using h2⟩
        · cases o with
          | none =>
            have happ : applyFormValues fields ((n0, v0) :: rest) =
                applyFormValues fields rest := by
              simp [applyFormValues, getFormField, hf, hw]
            rw [happ]
            exact ih fields hnodup hkeys.2 nv hmem
          | some f' =>
            have hst' : f'.statics = f.statics :=
              jsSetFieldValue_statics f f' v0 hw
            have hfname : f'.name = n0 := by
              rw [← statics_name, hst', statics_name]
              exact find?_name_eq fields n0 f hf
            have hnodup' :
                ((replaceFormField fields n0 f').map PDFField.name).Nodup := by
              rw [replaceFormField_names fields n0 f' hfname]
              exact hnodup
            have hstat :
                staticsAt (replaceFormField fields n0 f') nv.1 =
                  staticsAt fields nv.1 :=
              staticsAt_replaceFormField fields n0 f f' hnodup hf hst' nv.1
            have happ : applyFormValues fields ((n0, v0) :: rest) =
                ⟨(applyFormValues (replaceFormField fields n0 f') rest).fields,
                 (applyFormValues (replaceFormField fields n0 f') rest).warnings,
                 n0 :: (applyFormValues (replaceFormField fields n0 f') rest).written⟩ := by
              simp [applyFormValues, getFormField, hf, hw]
            have ihr := ih (replaceFormField fields n0 f') hnodup' hkeys.2 nv hmem
            rw [happ]
            refine ⟨fun hnone => ?_, fun st hst => ?_⟩
            · obtain ⟨h1, h2⟩ := ihr.1 (by rw [hstat]; exact hnone)
              exact ⟨by simpa using h1, by simp [hne, h2]⟩
            · obtain ⟨hw1, hw2, hw3⟩ := ihr.2 st (by rw [hstat]; exact hst)
              refine ⟨fun ho => ?_, fun ho => ?_, fun ho => ?_⟩
              · obtain ⟨h1, h2⟩ := hw1 ho
                exact ⟨by simp [h1], by simpa using h2⟩
              · obtain ⟨h1, h2⟩ := hw2 ho
                exact ⟨by simpa using h1, by simp [hne, h2]⟩
              · obtain ⟨h1, h2⟩ := hw3 ho
                exact ⟨by simpa using h1, by simp [hne, h2]⟩

/-- Witness for `form_values_write_outcomes`: after a failing entry
(unknown name "zz") the later entry "b" is still written, with no warning
recorded for it. -/
theorem form_values_write_outcomes_witness :
    "b" ∈ (applyFormValues
      [PDFField.textField "a" none none, PDFField.checkBox "b" false]
      [("a", JSValue.str "x"), ("zz", JSValue.str "y"),
       ("b", JSValue.bool true)]).written ∧
    "b" ∉ (applyFormValues
      [PDFField.textField "a" none none, PDFField.checkBox "b" false]
      [("a", JSValue.str "x"), ("zz", JSValue.str "y"),
       ("b", JSValue.bool true)]).warnings := by
  have h := (form_values_write_outcomes
      [PDFField.textField "a" none none, PDFField.checkBox "b" false]
      [("a", JSValue.str "x"), ("zz", JSValue.str "y"),
       ("b", JSValue.bool true)]
      (by decide) (by decide) ("b", JSValue.bool true) (by decide)).2
      ⟨"b", FieldKind.checkbox, [], none⟩ (by decide)
  exact h.1 (by decide)

/-- C9 counterexample: an entry whose value shape does not match its
field's kind (a boolean for a text field) resolves by name and throws
nothing, yet is neither written nor warned about — the write is skipped
silently. -/
theorem form_value_type_mismatch_counterexample :
    getFormField [PDFField.textField "a" none none] "a" =
      .ok (PDFField.textField "a" none none) ∧
    applyFormValues [PDFField.textField "a" none none]
      [("a", JSValue.bool true)] =
      ⟨[PDFField.textField "a" none none], [], []⟩ := by
  constructor <;> rfl

/-- C10: a dropdown written with an empty array matches no write branch —
the field keeps its pre-existing selection, with no warning and no write
recorded — while an option list passes the empty array to `select`,
clearing its selection. -/
theorem dropdown_empty_array_preserved (n : String) (opts sel : List String) :
    jsSetFieldValue (.dropdown n opts sel) (.strList []) = .ok none ∧
    applyFormValues [.dropdown n opts sel] [(n, .strList [])] =
      ⟨[.dropdown n opts sel], [], []⟩ ∧
    jsSetFieldValue (.optionList n opts sel) (.strList []) =
      .ok (some (.optionList n opts [])) := by
  refine ⟨rfl, ?_, rfl⟩
  simp [applyFormValues, getFormField, PDFField.name, jsSetFieldValue]

end PdfFocusBox
